import Mathlib

/-!
Shallow embedding of the `fvm-macro` repository (two Rust source files:
`src/lib.rs` and `fvm_macro_derive/src/lib.rs`).

The derive crate generates, at build time,
  - a `StateObject` impl (`load`/`save`) for a state type
    (`impl_fvm_state_macro`),
  - an `Actor` impl (`load`/`dispatch`) for an impl block plus an
    optional `invoke` entrypoint (`impl_fvm_actor`),
and it contains helpers that walk token streams and attribute strings
(`check_impl`, `meta`/`methods`, `extract_pub_fns`, `parse_attributes`,
`parse_macro_args`, `extract_binding`, `match_arm`).

The generated runtime code is embedded as pure functions over explicit
host inputs (root pointer result, block store, serializer results); a
Rust panic during macro expansion and an `abort!` at runtime are both
embedded as `Except.error`.  Token streams are embedded as a `TokenTree`
inductive mirroring `proc_macro2::TokenTree`.
-/

/-- Exit codes used by the generated code through the `abort!` macro of
`src/lib.rs` (`fvm_shared::error::ExitCode::$code`). -/
inductive AbortCode where
  | USR_ILLEGAL_STATE
  | USR_SERIALIZATION
  | USR_UNHANDLED_MESSAGE
  deriving DecidableEq

/-- Content identifier (`Cid`), modelled as a plain natural number. -/
abbrev Cid := Nat

/-- Serialized block bytes, modelled as a list of naturals. -/
abbrev Bytes := List Nat

/-- Store reads issued by the generated `load` code, recorded so that
"issues no store read" is expressible. -/
inductive StoreOp where
  | getRoot
  | getBlock (c : Cid)
  deriving DecidableEq

/-- Embedding of the `StateObject::load` body generated by
`impl_fvm_state_macro` (lines 51-64 of `fvm_macro_derive/src/lib.rs`).
`rootRes` is the outcome of `sdk::sself::root()`, `getCbor` the outcome
of `Blockstore.get_cbor::<Self>` at a given root.  The second component
records the store reads issued, in order. -/
def StateObject_load {σ : Type} (rootRes : Except String Cid)
    (getCbor : Cid → Except String (Option σ)) :
    (Except (AbortCode × String) σ) × List StoreOp :=
  match rootRes with
  | .error err =>
      (.error (.USR_ILLEGAL_STATE, "failed to get root: " ++ err), [.getRoot])
  | .ok root =>
      match getCbor root with
      | .ok (some state) => (.ok state, [.getRoot, .getBlock root])
      | .ok none =>
          (.error (.USR_ILLEGAL_STATE, "state does not exist"),
           [.getRoot, .getBlock root])
      | .error err =>
          (.error (.USR_ILLEGAL_STATE, "failed to get state: " ++ err),
           [.getRoot, .getBlock root])

/-- Embedding of the `Actor::load` body generated by `impl_fvm_actor`
(lines 126-131): on method number 1 it returns `default()` and runs no
store code at all; otherwise it delegates to `StateObject::load`. -/
def Actor_load {σ : Type} (methodNumber : Nat) (defaultState : σ)
    (rootRes : Except String Cid)
    (getCbor : Cid → Except String (Option σ)) :
    (Except (AbortCode × String) σ) × List StoreOp :=
  match methodNumber with
  | 1 => (.ok defaultState, [])
  | _ => StateObject_load rootRes getCbor

/-- The host-side store state touched by the generated `save`: the root
pointer (`sdk::sself`) and the set of stored blocks (`sdk::ipld`). -/
structure StoreState where
  root : Cid
  blocks : List (Cid × Bytes)
  deriving DecidableEq

/-- Embedding of the `StateObject::save` body generated by
`impl_fvm_state_macro` (lines 65-79).  `to_vec_res` is the outcome of
`to_vec(self)`, `putRes` the content identifier `sdk::ipld::put` would
assign to given bytes (when it succeeds), `setRootRes` the failure
message of `sdk::sself::set_root` at a given cid (`none` meaning
success).  Returns the call outcome together with the final store
state. -/
def StateObject_save (to_vec_res : Except String Bytes)
    (putRes : Bytes → Except String Cid)
    (setRootRes : Cid → Option String)
    (h : StoreState) : (Except (AbortCode × String) Cid) × StoreState :=
  match to_vec_res with
  | .error err =>
      (.error (.USR_SERIALIZATION, "failed to serialize state: " ++ err), h)
  | .ok serialized =>
      match putRes serialized with
      | .error err =>
          (.error (.USR_SERIALIZATION, "failed to store initial state: " ++ err), h)
      | .ok cid =>
          let h1 : StoreState := { h with blocks := (cid, serialized) :: h.blocks }
          match setRootRes cid with
          | some err =>
              (.error (.USR_ILLEGAL_STATE, "failed to set root ciid: " ++ err), h1)
          | none => (.ok cid, { h1 with root := cid })

/-- Embedding of the `match` expression emitted inside the generated
`Actor::dispatch` (lines 137-140): the arms, in emission order, pair a
method-number literal with the handler the arm invokes (identified here
by its name); the wildcard arm aborts with `USR_UNHANDLED_MESSAGE`.
Rust `match` semantics: the first arm whose pattern equals the scrutinee
wins.  An `.ok` result names the handler that was invoked; an `.error`
result means no handler ran. -/
def Actor_dispatch_match (arms : List (Nat × String)) (methodNumber : Nat) :
    Except (AbortCode × String) String :=
  match arms.find? (fun a => a.1 == methodNumber) with
  | some a => .ok a.2
  | none => .error (.USR_UNHANDLED_MESSAGE, "unrecognized method")

/-- One collected handler: function name plus the raw binding string
taken from its attribute (struct `ExportAttribute` of the source). -/
structure ExportAttribute where
  fn_name : String
  binding : String
  deriving DecidableEq

/-- The literal placed in a match-arm pattern by `match_arm`:
`proc_macro2::Literal::usize_unsuffixed` or `Literal::string`. -/
inductive Lit where
  | num (n : Nat)
  | str (s : String)
  deriving DecidableEq

/-- Accumulate decimal digits; any non-digit character fails. -/
def digitsToNat : List Char → Nat → Option Nat
  | [], acc => some acc
  | c :: cs, acc =>
      if c.isDigit then digitsToNat cs (acc * 10 + (c.toNat - 48))
      else none

/-- Rust `str::parse::<usize>` on the binding text: a non-empty string
of decimal digits parses to its value, anything else is an error (the
optional leading sign and the overflow bound of the Rust parser are not
exercised by the macro and are left out). -/
def parse_usize (s : String) : Option Nat :=
  match s.data with
  | [] => none
  | l => digitsToNat l 0

/-- Embedding of `match_arm` (lines 159-168): the arm's key literal is
computed from the handler's own `binding` string; under `method_num`
the binding is parsed as a usize (a parse failure panics with
"binding must be a number"), under `abi_selector` it is used verbatim
as a string literal; any other dispatch type panics. -/
def match_arm (attr : ExportAttribute) (dispatch_type : String) :
    Except String Lit :=
  match dispatch_type with
  | "method_num" =>
      match parse_usize attr.binding with
      | some n => .ok (.num n)
      | none => .error "binding must be a number"
  | "abi_selector" => .ok (.str attr.binding)
  | _ => .error ("unsupported dispatch_type " ++ dispatch_type)

/-- Embedding of the arm list built in `impl_fvm_actor` (lines 100-103):
`fns.iter().enumerate().map(|(_i, x)| match_arm(x, ..))` — note the
enumeration index `_i` is discarded, so the key of each arm comes only
from the handler's binding.  A panic in any `match_arm` aborts the whole
expansion. -/
def impl_fvm_actor_arms (fns : List ExportAttribute) (dispatch_type : String) :
    Except String (List (Lit × String)) :=
  match fns with
  | [] => .ok []
  | x :: rest =>
      match match_arm x dispatch_type with
      | .error e => .error e
      | .ok l =>
          match impl_fvm_actor_arms rest dispatch_type with
          | .error e => .error e
          | .ok arms => .ok ((l, x.fn_name) :: arms)

/-- Does `sep` occur as a prefix of `l`? Helper for the splitter. -/
def sepAt : List Char → List Char → Bool
  | [], _ => true
  | _ :: _, [] => false
  | a :: as, b :: bs => a == b && sepAt as bs

/-- Fuel-driven splitter over character lists, modelling Rust
`str::split(sep)` (leftmost, non-overlapping, non-empty separator;
adjacent or trailing separators yield empty pieces).  The fuel is a
totality device only; it is set to the input length, which always
suffices. -/
def splitFuel (sep : List Char) : Nat → List Char → List Char → List (List Char)
  | 0, _, acc => [acc.reverse]
  | _ + 1, [], acc => [acc.reverse]
  | fuel + 1, c :: cs, acc =>
      if sepAt sep (c :: cs) then
        acc.reverse :: splitFuel sep fuel (List.drop sep.length (c :: cs)) []
      else
        splitFuel sep fuel cs (c :: acc)

/-- Rust `str::split` producing a list of strings. -/
def rustSplit (sep : String) (s : String) : List String :=
  (splitFuel sep.data (s.data.length + 1) s.data []).map String.mk

/-- Whitespace recognizer for Rust `str::trim`. -/
def isWhite (c : Char) : Bool :=
  c == ' ' || c == '\t' || c == '\n' || c == '\r'

/-- Rust `str::trim`: strip leading and trailing whitespace. -/
def rustTrim (s : String) : String :=
  String.mk (((s.data.dropWhile isWhite).reverse.dropWhile isWhite).reverse)

/-- Rust `str::replace("\"", "")`: drop every double-quote character. -/
def stripQuotes (s : String) : String :=
  String.mk (s.data.filter (fun c => c != '\"'))

/-- Embedding of `parse_macro_args` (lines 317-330): split the attribute
text on commas, then split each piece (with quotes removed) on the
three-character separator " = " and trim each side.  `parse_attributes`
(lines 285-296) performs this identical computation on the actor-level
attribute text. -/
def parse_macro_args (attr_string : String) : List (List String) :=
  (rustSplit "," attr_string).map
    (fun x => (rustSplit " = " (stripQuotes x)).map rustTrim)

/-- Actor-level configuration record (struct `FvmActorMacroAttribute`). -/
structure FvmActorMacroAttribute where
  state : String
  dispatch_type : String
  invoke : Bool
  deriving DecidableEq

/-- Rust `"...".parse::<bool>().unwrap_or_default()`: `true` only for the
exact text "true"; any unparsable text falls back to `false`. -/
def parse_bool_or_default (s : String) : Bool := s == "true"

/-- The key/value loop of `parse_attributes` (lines 298-311).  Indexing
`i[1]` on a piece with no " = " separator is a Rust panic, embedded as
`Except.error`; unknown keys are skipped. -/
def parse_attributes_go (attrs : FvmActorMacroAttribute) :
    List (List String) → Except String FvmActorMacroAttribute
  | [] => .ok attrs
  | i :: rest =>
      match i.get? 0 with
      | none => .error "index out of bounds"
      | some k =>
          if k = "state" then
            match i.get? 1 with
            | none => .error "index out of bounds"
            | some v => parse_attributes_go { attrs with state := v } rest
          else if k = "dispatch" then
            match i.get? 1 with
            | none => .error "index out of bounds"
            | some v => parse_attributes_go { attrs with dispatch_type := v } rest
          else if k = "invoke" then
            match i.get? 1 with
            | none => .error "index out of bounds"
            | some v =>
                parse_attributes_go
                  { attrs with invoke := parse_bool_or_default v } rest
          else parse_attributes_go attrs rest

/-- Embedding of `parse_attributes` (lines 279-316): start from the
`Default` record (all strings empty) with `invoke` forced to `true`,
then fold the parsed key/value pieces. -/
def parse_attributes (attr_string : String) : Except String FvmActorMacroAttribute :=
  parse_attributes_go
    { state := "", dispatch_type := "", invoke := true }
    (parse_macro_args attr_string)

/-- Embedding of `extract_binding` (lines 332-344).  The Rust loop
returns on its very first iteration: `Some(arg[1])` when the first
piece's key is exactly "binding", `None` for any other first key; only
an empty argument list reaches the trailing `None`.  Indexing panics
(empty piece, or "binding" with no value) are `Except.error`. -/
def extract_binding : List (List String) → Except String (Option String)
  | [] => .ok none
  | arg :: _ =>
      match arg.get? 0 with
      | none => .error "index out of bounds"
      | some k =>
          if k = "binding" then
            match arg.get? 1 with
            | none => .error "index out of bounds"
            | some v => .ok (some v)
          else .ok none

/-- Group delimiters of `proc_macro2::Delimiter` (the `None` delimiter
never occurs in the streams the macro walks). -/
inductive Delim where
  | paren
  | bracket
  | brace
  deriving DecidableEq

/-- Embedding of `proc_macro2::TokenTree`: identifiers, punctuation,
literals and delimited groups. -/
inductive TokenTree where
  | ident (s : String)
  | punct (s : String)
  | lit (s : String)
  | group (d : Delim) (ts : List TokenTree)

/-- Opening delimiter text. -/
def delimOpen : Delim → String
  | .paren => "("
  | .bracket => "["
  | .brace => "\x7b"

/-- Closing delimiter text. -/
def delimClose : Delim → String
  | .paren => ")"
  | .bracket => "]"
  | .brace => "\x7d"

mutual
/-- Rust `TokenTree::to_string` as `proc_macro2`'s `Display` prints it:
atoms print their text, groups print their delimiters around the
space-separated rendering of their contents. -/
def TokenTree.toString : TokenTree → String
  | .ident s => s
  | .punct s => s
  | .lit s => s
  | .group d ts =>
      delimOpen d ++ String.intercalate " " (TokenTree.listStrings ts)
        ++ delimClose d

/-- Renderings of a list of token trees, in order. -/
def TokenTree.listStrings : List TokenTree → List String
  | [] => []
  | t :: ts => TokenTree.toString t :: TokenTree.listStrings ts
end

/-- Rust `TokenStream::to_string`: tokens separated by single spaces. -/
def streamToString (ts : List TokenTree) : String :=
  String.intercalate " " (ts.map TokenTree.toString)

/-- Embedding of `extract_identifier` (lines 189-196): the text of an
`Ident` token, and `unwrap_or_default()` (the empty string) for every
other token kind. -/
def extract_identifier : TokenTree → String
  | .ident s => s
  | _ => ""

/-- Embedding of `check_impl` (lines 170-187): unwrap the first and
third tokens of the item stream (a too-short stream is an unwrap
panic), then panic unless the first identifier is `impl`, and panic if
the third identifier is `for`.  Every `.error` is a build-time abort of
the macro expansion. -/
def check_impl (ts : List TokenTree) : Except String Unit :=
  match ts.get? 0 with
  | none => .error "unwrap on None"
  | some first =>
      match ts.get? 2 with
      | none => .error "unwrap on None"
      | some third =>
          if extract_identifier first ≠ "impl" then
            .error "fvm_actor: this macro can only be used on struct impl blocks."
          else if extract_identifier third = "for" then
            .error "fvm_actor: this macro does not support trait impl definitions"
          else .ok ()

/-- Loop state of `methods` (lines 208-213): the sliding
previous/current pair, the pending-attribute flag, the binding captured
from the last attribute, and the handlers exported so far. -/
structure MethodsState where
  previous : Option TokenTree
  current : Option TokenTree
  capture_next : Bool
  next_binding : Option String
  exported : List ExportAttribute

/-- Inner loop of `methods` over the tokens of an attribute group
(lines 226-234): every parenthesized group inside `#[...]` overwrites
`next_binding` with the result of `extract_binding` on its rendered
argument text; other tokens leave it unchanged. -/
def attr_scan : List TokenTree → Option String → Except String (Option String)
  | [], nb => .ok nb
  | .group _ inner :: rest, _ =>
      match extract_binding (parse_macro_args (streamToString inner)) with
      | .error e => .error e
      | .ok nb2 => attr_scan rest nb2
  | _ :: rest, nb => attr_scan rest nb

/-- One iteration of the `methods` loop (lines 218-248).  Only group
tokens are inspected: a group right after a `#` token records the
binding of the attribute it closes; the first group after such an
attribute (with `capture_next` set) exports the token just before it —
the function name — when a binding was captured.  Everything else only
slides the previous/current window.  Unwrapping `previous` on a leading
group is a panic. -/
def methods_step (st : MethodsState) (g : TokenTree) : Except String MethodsState :=
  match g with
  | .group _ inner =>
      match st.current with
      | none => .error "unwrap on None"
      | some p =>
          if TokenTree.toString p = "#" then
            match attr_scan inner st.next_binding with
            | .error e => .error e
            | .ok nb =>
                .ok { previous := st.current, current := some g,
                      capture_next := true, next_binding := nb,
                      exported := st.exported }
          else if st.capture_next then
            match st.next_binding with
            | some b =>
                .ok { previous := st.current, current := some g,
                      capture_next := false, next_binding := none,
                      exported := st.exported ++ [⟨TokenTree.toString p, b⟩] }
            | none =>
                .ok { previous := st.current, current := some g,
                      capture_next := false, next_binding := none,
                      exported := st.exported }
          else
            .ok { previous := st.current, current := some g,
                  capture_next := st.capture_next,
                  next_binding := st.next_binding, exported := st.exported }
  | _ =>
      .ok { previous := st.current, current := some g,
            capture_next := st.capture_next, next_binding := st.next_binding,
            exported := st.exported }

/-- The `methods` loop folded over a token list. -/
def methods_go (st : MethodsState) : List TokenTree → Except String MethodsState
  | [] => .ok st
  | g :: rest =>
      match methods_step st g with
      | .error e => .error e
      | .ok st2 => methods_go st2 rest

/-- Embedding of `methods` (lines 207-254): walk the tokens of the impl
body group and return the exported handlers; a non-group argument
yields the empty vector. -/
def methods (tt : TokenTree) : Except String (List ExportAttribute) :=
  match tt with
  | .group _ ts =>
      match methods_go { previous := none, current := none,
                         capture_next := false, next_binding := none,
                         exported := [] } ts with
      | .error e => .error e
      | .ok st => .ok st.exported
  | _ => .ok []

/-- Embedding of `extract_pub_fns` (lines 256-277): a sliding window of
identifier texts (both slots start as the text "\x7b\x7d"); a token
right after the pair `pub fn` contributes its identifier.  This
function is defined in the source but never called by the macro. -/
def extract_pub_fns_go (previous current : String) :
    List TokenTree → List String
  | [] => []
  | g :: rest =>
      if previous = "pub" ∧ current = "fn" then
        extract_identifier g ::
          extract_pub_fns_go current (extract_identifier g) rest
      else extract_pub_fns_go current (extract_identifier g) rest

/-- Embedding of `extract_pub_fns` on the impl body group. -/
def extract_pub_fns : TokenTree → List String
  | .group _ ts => extract_pub_fns_go "\x7b\x7d" "\x7b\x7d" ts
  | _ => []

/-- One member of an impl block, as relevant to handler collection: its
visibility, an optional attribute `#[fvm_export(<args>)]` carrying the
given argument tokens, and the function name. -/
structure MemberDecl where
  isPub : Bool
  attrArgs : Option (List TokenTree)
  name : String

/-- The token stream of one member declaration, as Rust tokenizes
`#[fvm_export(<args>)] pub fn <name>(params) { }`: an optional `#`
punct followed by a bracket group, an optional `pub` ident, then `fn`,
the name, the parenthesized argument list and the brace body. -/
def renderMember (m : MemberDecl) : List TokenTree :=
  (match m.attrArgs with
   | some args =>
       [TokenTree.punct "#",
        TokenTree.group .bracket
          [TokenTree.ident "fvm_export", TokenTree.group .paren args]]
   | none => [])
  ++ (if m.isPub then [TokenTree.ident "pub"] else [])
  ++ [TokenTree.ident "fn", TokenTree.ident m.name,
      TokenTree.group .paren [TokenTree.ident "params"],
      TokenTree.group .brace []]

/-- Token streams of a list of members, concatenated in order. -/
def renderMembers : List MemberDecl → List TokenTree
  | [] => []
  | m :: ms => renderMember m ++ renderMembers ms

/-- The impl body group holding the given members. -/
def renderBody (ms : List MemberDecl) : TokenTree :=
  .group .brace (renderMembers ms)

/-- The handler the collector exports for one member, by the source's
own rules: the member must carry an attribute and `extract_binding` on
the attribute's rendered arguments must yield a binding; visibility
plays no role.  (Characterization used to state what `methods`
computes.) -/
def exportOf (m : MemberDecl) : Except String (Option ExportAttribute) :=
  match m.attrArgs with
  | none => .ok none
  | some args =>
      match extract_binding (parse_macro_args (streamToString args)) with
      | .error e => .error e
      | .ok none => .ok none
      | .ok (some b) => .ok (some ⟨m.name, b⟩)

/-- The handlers the collector exports for a member list, in order. -/
def exportsOf : List MemberDecl → Except String (List ExportAttribute)
  | [] => .ok []
  | m :: ms =>
      match exportOf m with
      | .error e => .error e
      | .ok none => exportsOf ms
      | .ok (some x) =>
          match exportsOf ms with
          | .error e => .error e
          | .ok l => .ok (x :: l)

/-- The loop state `methods` reaches right after consuming one full
member declaration: the window holds the member's trailing argument
list and body groups, no attribute is pending, and `exported` holds the
handlers seen so far. -/
def memberEndState (ex : List ExportAttribute) : MethodsState :=
  { previous := some (TokenTree.group .paren [TokenTree.ident "params"]),
    current := some (TokenTree.group .brace []),
    capture_next := false, next_binding := none, exported := ex }

/-- The exit code reported by an aborted call, if it aborted. -/
def abortCodeOf {α : Type} : Except (AbortCode × String) α → Option AbortCode
  | .error (c, _) => some c
  | .ok _ => none

/-- Shared helper: under `method_num` dispatch, when every binding
parses, the emitted arm list pairs each handler, in declaration order,
with the numeric literal parsed from that handler's own binding. -/
lemma impl_arms_method_num (fns : List ExportAttribute)
    (h : ∀ f ∈ fns, (parse_usize f.binding).isSome) :
    impl_fvm_actor_arms fns "method_num" =
      .ok (fns.map (fun f => (Lit.num ((parse_usize f.binding).getD 0), f.fn_name))) := by
  induction fns with
  | nil => rfl
  | cons f rest ih =>
      obtain ⟨n, hn⟩ := Option.isSome_iff_exists.mp (h f (List.mem_cons_self f rest))
      have hrest := ih (fun g hg => h g (List.mem_cons_of_mem f hg))
      simp [impl_fvm_actor_arms, match_arm, hn, hrest]

/-- C1: refuted as stated.  A single collected handler whose declared
binding is "5" receives key `MethodNumber(5)` from the binding, not the
sequential key `MethodNumber(1)` the claim assigns to the first
handler: the binding is used, not ignored. -/
theorem sequential_numbering_counterexample :
    impl_fvm_actor_arms [⟨"foo", "5"⟩] "method_num" = .ok [(.num 5, "foo")] ∧
    Lit.num 5 ≠ Lit.num 1 :=
  ⟨rfl, by decide⟩

/-- C1 (amended): in `method_num` mode, when every collected handler's
binding parses as a usize, the synthesized table assigns the i-th
handler the key parsed from its own declared binding, in declaration
order; the sequential index of `enumerate` is discarded. -/
theorem method_num_keys_follow_bindings (fns : List ExportAttribute)
    (h : ∀ f ∈ fns, (parse_usize f.binding).isSome) :
    impl_fvm_actor_arms fns "method_num" =
      .ok (fns.map (fun f => (Lit.num ((parse_usize f.binding).getD 0), f.fn_name))) :=
  impl_arms_method_num fns h

/-- Witness for C1: two handlers with bindings "5" and "2" get keys 5
and 2 — not the sequential 1 and 2. -/
theorem method_num_keys_follow_bindings_witness :
    impl_fvm_actor_arms [⟨"foo", "5"⟩, ⟨"bar", "2"⟩] "method_num"
      = .ok [(.num 5, "foo"), (.num 2, "bar")] := by
  have h := method_num_keys_follow_bindings [⟨"foo", "5"⟩, ⟨"bar", "2"⟩] (by decide)
  exact h

/-- C2: refuted as stated.  Two handlers with the same binding "2" are
accepted by code generation (no build-time failure), producing a table
with the duplicate key twice, and at runtime the first arm silently
wins. -/
theorem duplicate_keys_counterexample :
    impl_fvm_actor_arms [⟨"a", "2"⟩, ⟨"b", "2"⟩] "method_num"
      = .ok [(.num 2, "a"), (.num 2, "b")] ∧
    Actor_dispatch_match [(2, "a"), (2, "b")] 2 = .ok "a" :=
  ⟨rfl, rfl⟩

/-- C2 (amended): the macro performs no duplicate-key check: code
generation succeeds for every handler list whose bindings parse,
duplicates included, and the emitted match makes the earliest arm
carrying the selector win, so a duplicate silently loses. -/
theorem duplicate_keys_unchecked :
    (∀ (fns : List ExportAttribute),
        (∀ f ∈ fns, (parse_usize f.binding).isSome) →
        ∃ arms, impl_fvm_actor_arms fns "method_num" = .ok arms) ∧
    (∀ (pre : List (Nat × String)) (n : Nat) (hname : String)
        (rest : List (Nat × String)), n ∉ pre.map Prod.fst →
        Actor_dispatch_match (pre ++ (n, hname) :: rest) n = .ok hname) := by
  constructor
  · intro fns h
    exact ⟨_, impl_arms_method_num fns h⟩
  · intro pre n hname rest hn
    unfold Actor_dispatch_match
    have hfind : (pre ++ (n, hname) :: rest).find? (fun a => a.1 == n)
        = some (n, hname) := by
      induction pre with
      | nil => exact List.find?_cons_of_pos _ (by simp)
      | cons p ps ih =>
          have hn2 : n ∉ ps.map Prod.fst := by
            intro hmem
            exact hn (by simp [hmem])
          have hpf : (p.1 == n) = false := by
            simp only [beq_eq_false_iff_ne, ne_eq]
            intro he
            exact hn (by simp [he])
          rw [List.cons_append]
          simp only [List.find?, hpf]
          exact ih hn2
    rw [hfind]

/-- Witness for C2: with duplicate key 2 on handlers `a` and `b`,
generation succeeds and selector 2 silently invokes `a`. -/
theorem duplicate_keys_unchecked_witness :
    (∃ arms, impl_fvm_actor_arms [⟨"a", "2"⟩, ⟨"b", "2"⟩] "method_num" = .ok arms) ∧
    Actor_dispatch_match [(2, "a"), (2, "b")] 2 = .ok "a" :=
  ⟨duplicate_keys_unchecked.1 _ (by decide),
   duplicate_keys_unchecked.2 [] 2 "a" [(2, "b")] (by decide)⟩

/-- C3: refuted as stated.  The three fatal conditions of the generated
non-constructor `load` all abort with the same condition code
`USR_ILLEGAL_STATE` — the codes are equal, not pairwise distinct. -/
theorem load_distinct_codes_counterexample :
    abortCodeOf (StateObject_load (σ := Nat) (.error "boom")
        (fun _ => .ok (some 0))).1 = some .USR_ILLEGAL_STATE ∧
    abortCodeOf (StateObject_load (σ := Nat) (.ok 7)
        (fun _ => .ok none)).1 = some .USR_ILLEGAL_STATE ∧
    abortCodeOf (StateObject_load (σ := Nat) (.ok 7)
        (fun _ => .error "bad")).1 = some .USR_ILLEGAL_STATE ∧
    abortCodeOf (StateObject_load (σ := Nat) (.error "boom")
        (fun _ => .ok (some 0))).1
      = abortCodeOf (StateObject_load (σ := Nat) (.ok 7)
        (fun _ => .ok none)).1 ∧
    abortCodeOf (StateObject_load (σ := Nat) (.ok 7)
        (fun _ => .ok none)).1
      = abortCodeOf (StateObject_load (σ := Nat) (.ok 7)
        (fun _ => .error "bad")).1 :=
  ⟨rfl, rfl, rfl, rfl, rfl⟩

/-- C3 (amended): each of the three fatal conditions on the
non-constructor `load` path aborts, but all with the single condition
code `USR_ILLEGAL_STATE`; they are distinguished only by their
messages. -/
theorem load_fatal_paths_same_code (σ : Type) (e err : String) (root : Cid)
    (getCbor : Cid → Except String (Option σ)) :
    (StateObject_load (σ := σ) (.error e) getCbor).1
      = .error (.USR_ILLEGAL_STATE, "failed to get root: " ++ e) ∧
    (StateObject_load (σ := σ) (.ok root) (fun _ => .ok none)).1
      = .error (.USR_ILLEGAL_STATE, "state does not exist") ∧
    (StateObject_load (σ := σ) (.ok root) (fun _ => .error err)).1
      = .error (.USR_ILLEGAL_STATE, "failed to get state: " ++ err) :=
  ⟨rfl, rfl, rfl⟩

/-- Shared helper: the state field survives the key/value loop whenever
no piece carries the key "state". -/
lemma parse_attributes_go_state (pieces : List (List String)) :
    ∀ (st attrs : FvmActorMacroAttribute),
    (∀ i ∈ pieces, i.get? 0 ≠ some "state") →
    parse_attributes_go st pieces = .ok attrs → attrs.state = st.state := by
  induction pieces with
  | nil =>
      intro st attrs _ h
      injection h with h2
      rw [← h2]
  | cons i rest ih =>
      intro st attrs hkeys h
      have hki : i.get? 0 ≠ some "state" := hkeys i (List.mem_cons_self i rest)
      have hrest : ∀ j ∈ rest, j.get? 0 ≠ some "state" :=
        fun j hj => hkeys j (List.mem_cons_of_mem i hj)
      cases hk : i.get? 0 with
      | none =>
          simp only [parse_attributes_go, hk] at h
          exact Except.noConfusion h
      | some k =>
          simp only [parse_attributes_go, hk] at h
          have hks : ¬ (k = "state") := fun he => hki (by rw [hk, he])
          rw [if_neg hks] at h
          by_cases hd : k = "dispatch"
          · rw [if_pos hd] at h
            cases hv : i.get? 1 with
            | none => simp only [hv] at h; exact Except.noConfusion h
            | some v =>
                simp only [hv] at h
                exact ih { st with dispatch_type := v } attrs hrest h
          · rw [if_neg hd] at h
            by_cases hi : k = "invoke"
            · rw [if_pos hi] at h
              cases hv : i.get? 1 with
              | none => simp only [hv] at h; exact Except.noConfusion h
              | some v =>
                  simp only [hv] at h
                  exact ih { st with invoke := parse_bool_or_default v } attrs hrest h
            · rw [if_neg hi] at h
              exact ih _ _ hrest h

/-- C4: refuted as stated.  An actor-level configuration without the
`state` key resolves without any error: the state name is silently
defaulted to the empty string. -/
theorem missing_state_counterexample :
    parse_attributes "dispatch = method_num"
      = .ok { state := "", dispatch_type := "method_num", invoke := true } :=
  rfl

/-- C4 (amended): whenever attribute resolution completes on a
configuration none of whose pieces carries the key `state`, it
succeeds with the state type name silently defaulted to the empty
string — no build-time configuration error is raised for the missing
key.  (The build still breaks later, but only because forming an
identifier from the empty string panics inside `impl_fvm_actor`.) -/
theorem missing_state_silently_defaults (s : String)
    (attrs : FvmActorMacroAttribute)
    (hok : parse_attributes s = .ok attrs)
    (hmiss : ∀ i ∈ parse_macro_args s, i.get? 0 ≠ some "state") :
    attrs.state = "" :=
  parse_attributes_go_state (parse_macro_args s) _ attrs hmiss hok

/-- Witness for C4: the configuration "dispatch = method_num" resolves
successfully and its state field is the empty default. -/
theorem missing_state_silently_defaults_witness :
    parse_attributes "dispatch = method_num"
      = .ok { state := "", dispatch_type := "method_num", invoke := true } ∧
    ({ state := "", dispatch_type := "method_num", invoke := true }
        : FvmActorMacroAttribute).state = "" :=
  ⟨rfl, missing_state_silently_defaults "dispatch = method_num" _ rfl (by decide)⟩

/-- C6: when the incoming call-selector is the constructor selector
(method number 1), the generated `Actor::load` returns the default
state and issues no store read at all, whatever the root pointer and
block store hold. -/
theorem constructor_bypass {σ : Type} (methodNumber : Nat) (defaultState : σ)
    (rootRes : Except String Cid) (getCbor : Cid → Except String (Option σ))
    (h : methodNumber = 1) :
    Actor_load methodNumber defaultState rootRes getCbor
      = (.ok defaultState, []) := by
  subst h
  rfl

/-- Witness for C6: selector 1 with a live root and an existing state
block still yields the default state with an empty read log. -/
theorem constructor_bypass_witness :
    Actor_load 1 (0 : Nat) (.ok 5) (fun _ => .ok (some 42)) = (.ok 0, []) :=
  constructor_bypass 1 0 (.ok 5) (fun _ => .ok (some 42)) rfl

/-- C7: the generated `save` either fully succeeds — the returned cid is
the new root and its block is stored — or aborts with the prior root
untouched; no failure path advances the root. -/
theorem save_root_integrity (tv : Except String Bytes)
    (put : Bytes → Except String Cid) (sr : Cid → Option String)
    (h : StoreState) :
    (∃ c, (StateObject_save tv put sr h).1 = .ok c ∧
          (StateObject_save tv put sr h).2.root = c ∧
          ∃ b, (c, b) ∈ (StateObject_save tv put sr h).2.blocks) ∨
    ((∃ e, (StateObject_save tv put sr h).1 = .error e) ∧
     (StateObject_save tv put sr h).2.root = h.root) := by
  rcases tv with e | s
  · exact Or.inr ⟨⟨_, rfl⟩, rfl⟩
  · rcases hp : put s with e | c
    · refine Or.inr ⟨⟨(AbortCode.USR_SERIALIZATION,
          "failed to store initial state: " ++ e), ?_⟩, ?_⟩ <;>
        simp [StateObject_save, hp]
    · rcases hs : sr c with _ | e
      · refine Or.inl ⟨c, ?_, ?_, ⟨s, ?_⟩⟩ <;>
          simp [StateObject_save, hp, hs]
      · refine Or.inr ⟨⟨(AbortCode.USR_ILLEGAL_STATE,
            "failed to set root ciid: " ++ e), ?_⟩, ?_⟩ <;>
          simp [StateObject_save, hp, hs]

/-- C8: a selector absent from a non-empty arm list makes the generated
dispatch match abort with `USR_UNHANDLED_MESSAGE`; no handler is
invoked. -/
theorem unknown_selector_aborts (arms : List (Nat × String)) (sel : Nat)
    (_hne : arms ≠ []) (hnot : sel ∉ arms.map Prod.fst) :
    Actor_dispatch_match arms sel
      = .error (.USR_UNHANDLED_MESSAGE, "unrecognized method") := by
  unfold Actor_dispatch_match
  have hfind : arms.find? (fun a => a.1 == sel) = none := by
    rw [List.find?_eq_none]
    intro a ha
    simp only [beq_iff_eq]
    intro he
    exact hnot (he ▸ List.mem_map_of_mem Prod.fst ha)
  rw [hfind]

/-- Witness for C8: selector 99 against the two-arm table aborts
unhandled. -/
theorem unknown_selector_aborts_witness :
    Actor_dispatch_match [(2, "increment"), (3, "reset")] 99
      = .error (.USR_UNHANDLED_MESSAGE, "unrecognized method") :=
  unknown_selector_aborts [(2, "increment"), (3, "reset")] 99
    (by decide) (by decide)

/-- C9: any item stream whose first identifier is not `impl`, or whose
third token is the identifier `for`, makes `check_impl` abort the
expansion. -/
theorem check_impl_rejects_non_impl (ts : List TokenTree)
    (first third : TokenTree)
    (h0 : ts.get? 0 = some first) (h2 : ts.get? 2 = some third)
    (hbad : extract_identifier first ≠ "impl"
            ∨ extract_identifier third = "for") :
    ∃ e, check_impl ts = .error e := by
  unfold check_impl
  rw [h0, h2]
  by_cases hf : extract_identifier first = "impl"
  · rcases hbad with hb | hb
    · exact absurd hf hb
    · simp [hf, hb]
  · simp [hf]

/-- Witness for C9: a trait impl stream (`impl Display for Foo ...`) is
rejected. -/
theorem check_impl_rejects_non_impl_witness :
    ∃ e, check_impl [.ident "impl", .ident "Display", .ident "for",
                     .ident "Foo", .group .brace []] = .error e :=
  check_impl_rejects_non_impl _ (.ident "impl") (.ident "for")
    rfl rfl (Or.inr rfl)

/-- C10: `extract_binding` inspects only the first key=value pair — any
first key other than `binding` yields no binding even when a `binding`
pair follows — so a handler annotated `other = x, binding = v` is
excluded from the dispatch table despite its declared binding. -/
theorem binding_must_be_first_key :
    (∀ (k v : String) (rest : List (List String)), k ≠ "binding" →
        extract_binding ([k, v] :: rest) = .ok none) ∧
    methods (renderBody [⟨true,
        some [.ident "other", .punct "=", .ident "x", .punct ",",
              .ident "binding", .punct "=", .ident "v"], "m"⟩]) = .ok [] := by
  constructor
  · intro k v rest hk
    simp [extract_binding, hk]
  · rfl

/-- Witness for C10: the parsed annotation `other = x, binding = v`
yields no binding. -/
theorem binding_must_be_first_key_witness :
    extract_binding [["other", "x"], ["binding", "v"]] = .ok none :=
  binding_must_be_first_key.1 "other" "x" [["binding", "v"]] (by decide)

/-- Rendering of an identifier token. -/
lemma toString_ident (s : String) : TokenTree.toString (.ident s) = s := rfl

/-- Rendering of a punctuation token. -/
lemma toString_punct (s : String) : TokenTree.toString (.punct s) = s := rfl

/-- The rendered argument-list group is never the text "#". -/
lemma paren_params_ne_hash :
    TokenTree.toString (.group .paren [.ident "params"]) ≠ "#" := by decide

/-- Scanning the two tokens inside a rendered attribute bracket group
overwrites the pending binding with the extraction result. -/
lemma attr_scan_pair (args : List TokenTree) (nb : Option String) :
    attr_scan [.ident "fvm_export", .group .paren args] nb =
      match extract_binding (parse_macro_args (streamToString args)) with
      | .error e => .error e
      | .ok nb2 => .ok nb2 := rfl

/-- The `methods` loop over a concatenation runs the two parts in
sequence. -/
lemma methods_go_append (st : MethodsState) (l1 l2 : List TokenTree) :
    methods_go st (l1 ++ l2) =
      match methods_go st l1 with
      | .error e => .error e
      | .ok st2 => methods_go st2 l2 := by
  induction l1 generalizing st with
  | nil => rfl
  | cons t ts ih =>
      rw [List.cons_append]
      cases h : methods_step st t with
      | error e => simp [methods_go, h]
      | ok st2 => simp [methods_go, h, ih st2]

/-- The `methods` loop over one rendered member: with no attribute
pending on entry, the member contributes exactly what `exportOf`
grants it (or the panic `exportOf` raises), and the loop leaves the
member in a clean end state. -/
lemma methods_go_member (m : MemberDecl) (st : MethodsState)
    (hc : st.capture_next = false) (hb : st.next_binding = none)
    (hn : m.name ≠ "#") :
    methods_go st (renderMember m) =
      match exportOf m with
      | .error e => .error e
      | .ok o => .ok (memberEndState (st.exported ++ o.toList)) := by
  obtain ⟨p0, c0, cn, nb, ex⟩ := st
  simp only at hc hb
  subst hc hb
  cases hA : m.attrArgs with
  | none =>
      cases hPub : m.isPub <;>
        simp [renderMember, exportOf, methods_go, methods_step, hA, hPub,
              toString_ident, hn, memberEndState, paren_params_ne_hash]
  | some args =>
      cases hE : extract_binding (parse_macro_args (streamToString args)) with
      | error e =>
          cases hPub : m.isPub <;>
            simp [renderMember, exportOf, methods_go, methods_step, hA, hPub,
                  toString_ident, toString_punct, attr_scan_pair, hE]
      | ok bo =>
          cases bo <;> cases hPub : m.isPub <;>
            simp [renderMember, exportOf, methods_go, methods_step, hA, hPub,
                  toString_ident, toString_punct, attr_scan_pair, hE, hn,
                  memberEndState, paren_params_ne_hash]

/-- The `methods` loop over a whole member list accumulates exactly the
handlers `exportsOf` grants, member by member, in order. -/
lemma methods_go_members (ms : List MemberDecl) :
    ∀ (st : MethodsState), st.capture_next = false → st.next_binding = none →
    (∀ m ∈ ms, m.name ≠ "#") →
    (match exportsOf ms with
     | .error e => methods_go st (renderMembers ms) = .error e
     | .ok l => ∃ stF, methods_go st (renderMembers ms) = .ok stF ∧
                stF.exported = st.exported ++ l) := by
  induction ms with
  | nil =>
      intro st _ _ _
      exact ⟨st, rfl, by simp⟩
  | cons m ms ih =>
      intro st hc hb hns
      have hm : m.name ≠ "#" := hns m (List.mem_cons_self m ms)
      have hms : ∀ x ∈ ms, x.name ≠ "#" :=
        fun x hx => hns x (List.mem_cons_of_mem m hx)
      cases hEm : exportOf m with
      | error e =>
          have hgo : methods_go st (renderMembers (m :: ms)) = .error e := by
            rw [show renderMembers (m :: ms)
                  = renderMember m ++ renderMembers ms from rfl,
                methods_go_append, methods_go_member m st hc hb hm, hEm]
          simp only [exportsOf, hEm]
          exact hgo
      | ok bo =>
          have hstep : methods_go st (renderMembers (m :: ms)) =
              methods_go (memberEndState (st.exported ++ bo.toList))
                (renderMembers ms) := by
            rw [show renderMembers (m :: ms)
                  = renderMember m ++ renderMembers ms from rfl,
                methods_go_append, methods_go_member m st hc hb hm, hEm]
          have IH := ih (memberEndState (st.exported ++ bo.toList)) rfl rfl hms
          cases hEms : exportsOf ms with
          | error e =>
              rw [hEms] at IH
              cases bo with
              | none =>
                  simp only [exportsOf, hEm, hEms]
                  rw [hstep]
                  exact IH
              | some x =>
                  simp only [exportsOf, hEm, hEms]
                  rw [hstep]
                  exact IH
          | ok l =>
              rw [hEms] at IH
              obtain ⟨stF, hgo2, hexp⟩ := IH
              cases bo with
              | none =>
                  simp only [exportsOf, hEm, hEms]
                  refine ⟨stF, by rw [hstep]; exact hgo2, ?_⟩
                  simp only [memberEndState] at hexp
                  simpa using hexp
              | some x =>
                  simp only [exportsOf, hEm, hEms]
                  refine ⟨stF, by rw [hstep]; exact hgo2, ?_⟩
                  simp only [memberEndState] at hexp
                  simpa using hexp

/-- C5: refuted as stated, amended.  Handler collection is driven by
the `binding` annotation, not by visibility or function shape: over any
rendered member list, `methods` exports exactly the members whose
attribute argument text yields a binding through `extract_binding`
(panicking where extraction panics), regardless of whether the member
is `pub`. -/
theorem methods_collects_annotated (ms : List MemberDecl)
    (h : ∀ m ∈ ms, m.name ≠ "#") :
    methods (renderBody ms) = exportsOf ms := by
  have H := methods_go_members ms
    { previous := none, current := none, capture_next := false,
      next_binding := none, exported := [] } rfl rfl h
  cases hE : exportsOf ms with
  | error e =>
      rw [hE] at H
      simp only [methods, renderBody, H]
  | ok l =>
      rw [hE] at H
      obtain ⟨stF, hgo, hexp⟩ := H
      simp only [methods, renderBody, hgo, hexp]
      simp

/-- Witness for C5: a non-public annotated function is collected while
a public plain function is not. -/
theorem methods_collects_annotated_witness :
    methods (renderBody
        [⟨false, some [.ident "binding", .punct "=", .lit "7"], "secret"⟩,
         ⟨true, none, "helper"⟩])
      = exportsOf
        [⟨false, some [.ident "binding", .punct "=", .lit "7"], "secret"⟩,
         ⟨true, none, "helper"⟩] ∧
    exportsOf
        [⟨false, some [.ident "binding", .punct "=", .lit "7"], "secret"⟩,
         ⟨true, none, "helper"⟩] = .ok [⟨"secret", "7"⟩] :=
  ⟨methods_collects_annotated _ (by decide), rfl⟩

/-- C5: refuted as stated.  A public function without an annotation is
not collected (though the never-called `extract_pub_fns` would have
found it), while a private annotated function is collected. -/
theorem pub_fn_collection_counterexample :
    methods (renderBody [⟨true, none, "helper"⟩]) = .ok [] ∧
    extract_pub_fns (renderBody [⟨true, none, "helper"⟩]) = ["helper"] ∧
    methods (renderBody
        [⟨false, some [.ident "binding", .punct "=", .lit "7"], "secret"⟩])
      = .ok [⟨"secret", "7"⟩] :=
  ⟨rfl, rfl, rfl⟩
